import Mathlib

/-! Verification development for the themis policy-decision-point sources:
the jast package's JSON policy-document parser entry point
(context.unmarshal), the deny-overrides combining algorithm of the
combining-algorithm engine, and the pdpserver tracing setup (InitTracing).
Go code is shallowly embedded: the streaming JSON decoder state is
represented by a document value already split into the root-object start,
the root object's key/payload pairs in document order, and a flag for
trailing content; errors are threaded with Except. -/

namespace Themis

/-- Parse-time errors produced by the parser.  unknownAttribute embeds
newUnknownAttributeError's payload: the offending key. -/
inductive ParseError where
  | rootStart
  | unknownAttribute (k : String)
  | duplicateAttribute (id : String)
  | missingAttribute (id : String)
  | invalidSection (tag : String)
  | trailingContent
  deriving DecidableEq, Repr

namespace pdp

/-- pdp.Attribute: a declared attribute, an id together with its type tag. -/
structure Attribute where
  id : String
  t : String
  deriving DecidableEq, Repr

end pdp

/-- Payload of one key of the root document object, as the streaming decoder
hands it to a section handler: an attribute-declarations object (id/type
pairs in document order), a root-policy object carrying the attribute ids
its expressions reference, or any other JSON value. -/
inductive Payload where
  | attrObj (decls : List (String × String))
  | policyObj (refs : List String)
  | otherVal
  deriving DecidableEq, Repr

/-- The decoder input seen by context.unmarshal: what
jparser.CheckRootObjectStart reports (an error, or whether a root object is
present), the root object's key/payload pairs in document order, and
whether any content trails the root object's closing brace. -/
structure Doc where
  startErr : Option ParseError
  hasRoot : Bool
  pairs : List (String × Payload)
  trailing : Bool
  deriving DecidableEq, Repr

/-- The jast parsing context: the shared attribute-declarations map and the
root policy slot (context struct of src/unnamed/part_000). The Go
map[string]pdp.Attribute is embedded as an association list queried with
List.lookup. -/
structure context where
  attrs : List (String × pdp.Attribute)
  rootPolicy : Option (List String)
  deriving DecidableEq, Repr

/-- newContext from src/unnamed/part_000: empty attribute map, no root
policy. -/
def newContext : context := ⟨[], none⟩

/-- newContextWithAttributes from src/unnamed/part_000. -/
def newContextWithAttributes (attrs : List (String × pdp.Attribute)) : context :=
  ⟨attrs, none⟩

/-- Go strings.ToLower, modelled on the character list of the string (the
tag vocabulary is ASCII, where Char.toLower agrees with Go). -/
def stringsToLower (s : String) : String :=
  String.mk (s.data.map Char.toLower)

/-- Modelled from the spec: the attribute-declarations tag constant
yastTagAttributes, defined outside src/ (spec section 6 fixes an
attribute-section tag; the dispatch compares it to lower-cased keys). -/
def yastTagAttributes : String := "attributes"

/-- Modelled from the spec: the root-policy tag constant yastTagPolicies,
defined outside src/. -/
def yastTagPolicies : String := "policies"

/-- newUnknownAttributeError from the jast package: a hard parse error
carrying the offending key. -/
def newUnknownAttributeError (k : String) : ParseError :=
  ParseError.unknownAttribute k

/-- Modelled from the spec: context.unmarshalAttributeDeclarations is not
under src/; the spec requires that redeclaration of an id is an error and
that declarations enter the shared attrs map in document order. -/
def unmarshalAttrList : List (String × String) → context → Except ParseError context
  | [], ctx => Except.ok ctx
  | (i, t) :: rest, ctx =>
    if (ctx.attrs.lookup i).isSome then Except.error (ParseError.duplicateAttribute i)
    else unmarshalAttrList rest { ctx with attrs := (i, pdp.Attribute.mk i t) :: ctx.attrs }

/-- Modelled from the spec: the attribute-declarations section handler
context.unmarshalAttributeDeclarations (not under src/); a payload of the
wrong shape is a schema error. -/
def context.unmarshalAttributeDeclarations (ctx : context) (v : Payload) :
    Except ParseError context :=
  match v with
  | Payload.attrObj ds => unmarshalAttrList ds ctx
  | _ => Except.error (ParseError.invalidSection yastTagAttributes)

/-- First referenced attribute id missing from the declarations map, if
any. -/
def firstUndeclared (attrs : List (String × pdp.Attribute)) : List String → Option String
  | [] => none
  | r :: rest =>
    if (attrs.lookup r).isSome then firstUndeclared attrs rest else some r

/-- Modelled from the spec: the root-policy section handler
context.unmarshalRootPolicy (not under src/); every attribute id the policy
references must already be declared in the shared attrs map, and on success
the context's root policy slot is filled. -/
def context.unmarshalRootPolicy (ctx : context) (v : Payload) :
    Except ParseError context :=
  match v with
  | Payload.policyObj refs =>
    match firstUndeclared ctx.attrs refs with
    | some r => Except.error (ParseError.missingAttribute r)
    | none => Except.ok { ctx with rootPolicy := some refs }
  | _ => Except.error (ParseError.invalidSection yastTagPolicies)

/-- The anonymous handler function context.unmarshal passes to
jparser.UnmarshalObject (src/unnamed/part_000, lines 34-43): switch on
strings.ToLower of the key, dispatching to the attribute-declarations
handler or the root-policy handler, and a hard unknown-attribute error for
every other key. -/
def rootHandler (k : String) (v : Payload) (ctx : context) : Except ParseError context :=
  if stringsToLower k = yastTagAttributes then ctx.unmarshalAttributeDeclarations v
  else if stringsToLower k = yastTagPolicies then ctx.unmarshalRootPolicy v
  else Except.error (newUnknownAttributeError k)

namespace jparser

/-- Modelled from the spec: jparser.CheckRootObjectStart (not under src/)
reports a decoding error, or whether the document has a root object. -/
def CheckRootObjectStart (d : Doc) : Except ParseError Bool :=
  match d.startErr with
  | some e => Except.error e
  | none => Except.ok d.hasRoot

/-- Modelled from the spec: jparser.UnmarshalObject (not under src/)
streams the object's key/payload pairs in document order, calls the handler
on each, and stops at the first error, returning it. -/
def UnmarshalObject (f : String → Payload → context → Except ParseError context) :
    List (String × Payload) → context → Except ParseError context
  | [], ctx => Except.ok ctx
  | (k, v) :: rest, ctx =>
    match f k v ctx with
    | Except.error e => Except.error e
    | Except.ok c => UnmarshalObject f rest c

/-- Modelled from the spec: jparser.CheckEOF (not under src/) fails when
any content trails the root object. -/
def CheckEOF (d : Doc) : Except ParseError Unit :=
  if d.trailing then Except.error ParseError.trailingContent else Except.ok ()

end jparser

/-- context.unmarshal from src/unnamed/part_000 (lines 24-49): check the
root-object start (absence is success), stream the root object's keys
through the dispatch handler, then require end of input. -/
def context.unmarshal (ctx : context) (d : Doc) : Except ParseError context :=
  match jparser.CheckRootObjectStart d with
  | Except.error e => Except.error e
  | Except.ok false => Except.ok ctx
  | Except.ok true =>
    match jparser.UnmarshalObject rootHandler d.pairs ctx with
    | Except.error e => Except.error e
    | Except.ok c =>
      match jparser.CheckEOF d with
      | Except.error e => Except.error e
      | Except.ok _ => Except.ok c

/-- Decision effects of the evaluation engine. -/
inductive Effect where
  | Permit
  | Deny
  | NotApplicable
  | Indeterminate
  deriving DecidableEq, Repr

/-- An obligation: an attribute id paired with an expression. -/
structure Obligation where
  id : String
  expr : String
  deriving DecidableEq, Repr

/-- The result of evaluating one child of a container node: an effect with
the obligations attached to it. -/
structure EvalResult where
  effect : Effect
  obligations : List Obligation
  deriving DecidableEq, Repr

/-- Modelled from the spec: the Deny-overrides combining algorithm of the
combining-algorithm engine (not under src/); over the ordered child
results, any Deny wins carrying that child's obligations, else any
Indeterminate makes the result Indeterminate, else any Permit makes it
Permit, else NotApplicable. -/
def denyOverrides (children : List EvalResult) : EvalResult :=
  match children.find? (fun r => decide (r.effect = Effect.Deny)) with
  | some r => ⟨Effect.Deny, r.obligations⟩
  | none =>
    if children.any (fun r => decide (r.effect = Effect.Indeterminate)) then
      ⟨Effect.Indeterminate, []⟩
    else if children.any (fun r => decide (r.effect = Effect.Permit)) then
      ⟨Effect.Permit, []⟩
    else ⟨Effect.NotApplicable, []⟩

/-- An opentracing tracer, abstracted to its collector endpoint; the zipkin
collector construction is an external effect. -/
structure Tracer where
  endpoint : String
  deriving DecidableEq, Repr

/-- A Go (ot.Tracer, error) pair: an optional tracer and an optional error
message. -/
abbrev TracerResult := Option Tracer × Option String

/-- InitTracing from src/pdpserver/trace.go: an empty endpoint yields a nil
tracer and nil error; otherwise the type switch accepts only zipkin,
delegating to setupZipkin (an external, network-effecting call, passed here
as a function argument), and any other type is an invalid-type error. -/
def InitTracing (setupZipkin : String → TracerResult)
    (tracingType tracingEP : String) : TracerResult :=
  if tracingEP = "" then (none, none)
  else if tracingType = "zipkin" then setupZipkin tracingEP
  else (none, some ("Invalid tracing type: " ++ tracingType))

theorem UnmarshalObject_cons (f : String → Payload → context → Except ParseError context)
    (k : String) (v : Payload) (rest : List (String × Payload)) (ctx : context) :
    jparser.UnmarshalObject f ((k, v) :: rest) ctx =
      match f k v ctx with
      | Except.error e => Except.error e
      | Except.ok c => jparser.UnmarshalObject f rest c := rfl

theorem UnmarshalObject_stop (f : String → Payload → context → Except ParseError context)
    (pre : List (String × Payload)) (k : String) (v : Payload)
    (rest : List (String × Payload)) (ctx c : context) (e : ParseError)
    (hpre : jparser.UnmarshalObject f pre ctx = Except.ok c)
    (hk : f k v c = Except.error e) :
    jparser.UnmarshalObject f (pre ++ (k, v) :: rest) ctx = Except.error e := by
  induction pre generalizing ctx with
  | nil =>
    simp only [jparser.UnmarshalObject] at hpre
    cases hpre
    rw [List.nil_append, UnmarshalObject_cons, hk]
  | cons p pre ih =>
    obtain ⟨k1, v1⟩ := p
    rw [List.cons_append, UnmarshalObject_cons]
    rw [UnmarshalObject_cons] at hpre
    cases hf : f k1 v1 ctx with
    | error e1 => rw [hf] at hpre; exact absurd hpre (by simp)
    | ok c1 =>
      rw [hf] at hpre
      exact ih c1 hpre

theorem unmarshal_of_object_error (ctx : context) (pairs : List (String × Payload))
    (tr : Bool) (e : ParseError)
    (hb : jparser.UnmarshalObject rootHandler pairs ctx = Except.error e) :
    context.unmarshal ctx ⟨none, true, pairs, tr⟩ = Except.error e := by
  simp [context.unmarshal, jparser.CheckRootObjectStart, hb]

theorem unmarshal_first_error (ctx c : context) (pre : List (String × Payload))
    (k : String) (v : Payload) (e : ParseError)
    (hpre : jparser.UnmarshalObject rootHandler pre ctx = Except.ok c)
    (hk : rootHandler k v c = Except.error e)
    (rest : List (String × Payload)) (tr : Bool) :
    context.unmarshal ctx ⟨none, true, pre ++ (k, v) :: rest, tr⟩ = Except.error e :=
  unmarshal_of_object_error ctx (pre ++ (k, v) :: rest) tr e
    (UnmarshalObject_stop rootHandler pre k v rest ctx c e hpre hk)

theorem lookup_cons_isSome (attrs : List (String × pdp.Attribute)) (i j : String)
    (a : pdp.Attribute) (h : (attrs.lookup i).isSome = true) :
    (((j, a) :: attrs).lookup i).isSome = true := by
  simp only [List.lookup]
  cases hij : i == j
  · simpa using h
  · simp

theorem lookup_cons_self (attrs : List (String × pdp.Attribute)) (i : String)
    (a : pdp.Attribute) : (((i, a) :: attrs).lookup i).isSome = true := by
  simp [List.lookup]

theorem unmarshalAttrList_redeclared (ds1 : List (String × String)) (i t : String)
    (ds2 : List (String × String)) :
    ∀ ctx : context, (i ∈ ds1.map Prod.fst ∨ (ctx.attrs.lookup i).isSome = true) →
      ∃ j, unmarshalAttrList (ds1 ++ (i, t) :: ds2) ctx =
        Except.error (ParseError.duplicateAttribute j) := by
  induction ds1 with
  | nil =>
    intro ctx h
    have hs : (ctx.attrs.lookup i).isSome = true := by
      rcases h with h | h
      · simp at h
      · exact h
    exact ⟨i, by rw [List.nil_append]; unfold unmarshalAttrList; rw [if_pos hs]⟩
  | cons p ds1 ih =>
    obtain ⟨i0, t0⟩ := p
    intro ctx h
    rw [List.cons_append]
    unfold unmarshalAttrList
    by_cases h0 : (ctx.attrs.lookup i0).isSome = true
    · exact ⟨i0, by rw [if_pos h0]⟩
    · rw [if_neg h0]
      apply ih
      rcases h with h | h
      · simp only [List.map_cons, List.mem_cons] at h
        rcases h with h | h
        · subst h
          exact Or.inr (lookup_cons_self ctx.attrs i (pdp.Attribute.mk i t0))
        · exact Or.inl h
      · exact Or.inr (lookup_cons_isSome ctx.attrs i i0 (pdp.Attribute.mk i0 t0) h)

theorem firstUndeclared_isSome (attrs : List (String × pdp.Attribute))
    (refs : List String) (r : String) (hr : r ∈ refs) (hn : attrs.lookup r = none) :
    ∃ r2, firstUndeclared attrs refs = some r2 := by
  induction refs with
  | nil => cases hr
  | cons x rest ih =>
    unfold firstUndeclared
    by_cases hx : (attrs.lookup x).isSome = true
    · rw [if_pos hx]
      rcases List.mem_cons.mp hr with h | h
      · subst h; rw [hn] at hx; simp at hx
      · exact ih h
    · exact ⟨x, by rw [if_neg hx]⟩

theorem unmarshalAttrList_rootPolicy (ds : List (String × String)) :
    ∀ ctx c : context, unmarshalAttrList ds ctx = Except.ok c →
      c.rootPolicy = ctx.rootPolicy := by
  induction ds with
  | nil =>
    intro ctx c h
    simp only [unmarshalAttrList] at h
    cases h
    rfl
  | cons p rest ih =>
    obtain ⟨i, t⟩ := p
    intro ctx c h
    unfold unmarshalAttrList at h
    by_cases hi : (ctx.attrs.lookup i).isSome = true
    · rw [if_pos hi] at h; exact absurd h (by simp)
    · rw [if_neg hi] at h
      exact ih { ctx with attrs := (i, pdp.Attribute.mk i t) :: ctx.attrs } c h

theorem unmarshalAttributeDeclarations_rootPolicy (ctx c : context) (v : Payload)
    (h : ctx.unmarshalAttributeDeclarations v = Except.ok c) :
    c.rootPolicy = ctx.rootPolicy := by
  cases v with
  | attrObj ds => exact unmarshalAttrList_rootPolicy ds ctx c h
  | policyObj refs => exact absurd h (by simp [context.unmarshalAttributeDeclarations])
  | otherVal => exact absurd h (by simp [context.unmarshalAttributeDeclarations])

theorem unmarshalRootPolicy_isSome (ctx c : context) (v : Payload)
    (h : ctx.unmarshalRootPolicy v = Except.ok c) :
    c.rootPolicy.isSome = true := by
  cases v with
  | attrObj ds => exact absurd h (by simp [context.unmarshalRootPolicy])
  | otherVal => exact absurd h (by simp [context.unmarshalRootPolicy])
  | policyObj refs =>
    have h2 : (match firstUndeclared ctx.attrs refs with
        | some r => Except.error (ParseError.missingAttribute r)
        | none => Except.ok { attrs := ctx.attrs, rootPolicy := some refs }) =
        Except.ok c := h
    cases hu : firstUndeclared ctx.attrs refs with
    | some r => rw [hu] at h2; exact absurd h2 (by simp)
    | none =>
      rw [hu] at h2
      cases h2
      rfl

theorem rootPolicy_after_object (pairs : List (String × Payload)) :
    ∀ ctx c : context, jparser.UnmarshalObject rootHandler pairs ctx = Except.ok c →
      (c.rootPolicy.isSome = true ↔
        (ctx.rootPolicy.isSome = true ∨
          ∃ p ∈ pairs, stringsToLower p.1 = yastTagPolicies)) := by
  induction pairs with
  | nil =>
    intro ctx c h
    simp only [jparser.UnmarshalObject] at h
    cases h
    simp
  | cons p rest ih =>
    obtain ⟨k, v⟩ := p
    intro ctx c h
    rw [UnmarshalObject_cons] at h
    cases hf : rootHandler k v ctx with
    | error e => rw [hf] at h; exact absurd h (by simp)
    | ok c1 =>
      rw [hf] at h
      have hrec := ih c1 c h
      by_cases hA : stringsToLower k = yastTagAttributes
      · have hfA : ctx.unmarshalAttributeDeclarations v = Except.ok c1 := by
          rw [rootHandler, if_pos hA] at hf; exact hf
        have hpres := unmarshalAttributeDeclarations_rootPolicy ctx c1 v hfA
        have hkP : ¬stringsToLower k = yastTagPolicies := by rw [hA]; decide
        rw [hrec, hpres]
        constructor
        · rintro (h1 | ⟨q, hq, hqq⟩)
          · exact Or.inl h1
          · exact Or.inr ⟨q, List.mem_cons_of_mem _ hq, hqq⟩
        · rintro (h1 | ⟨q, hq, hqq⟩)
          · exact Or.inl h1
          · rcases List.mem_cons.mp hq with h2 | h2
            · subst h2; exact absurd hqq hkP
            · exact Or.inr ⟨q, h2, hqq⟩
      · by_cases hP : stringsToLower k = yastTagPolicies
        · have hfP : ctx.unmarshalRootPolicy v = Except.ok c1 := by
            rw [rootHandler, if_neg hA, if_pos hP] at hf; exact hf
          have hsome := unmarshalRootPolicy_isSome ctx c1 v hfP
          have hL : c.rootPolicy.isSome = true := hrec.mpr (Or.inl hsome)
          exact iff_of_true hL (Or.inr ⟨(k, v), List.mem_cons_self _ _, hP⟩)
        · exfalso
          rw [rootHandler, if_neg hA, if_neg hP] at hf
          exact absurd hf (by simp)

/-- C1: every key of the root document object whose lower-cased form is
neither the attribute-declarations tag nor the policies tag makes
context.unmarshal return the hard parse error carrying that key
(newUnknownAttributeError); the unknown tag is never silently ignored and
no context is returned, whatever follows the key. -/
theorem c1_unknown_tag_is_hard_error (ctx c : context) (pre : List (String × Payload))
    (k : String) (v : Payload)
    (hpre : jparser.UnmarshalObject rootHandler pre ctx = Except.ok c)
    (h1 : stringsToLower k ≠ yastTagAttributes)
    (h2 : stringsToLower k ≠ yastTagPolicies) :
    ∀ (rest : List (String × Payload)) (tr : Bool),
      context.unmarshal ctx ⟨none, true, pre ++ (k, v) :: rest, tr⟩ =
        Except.error (newUnknownAttributeError k) := by
  intro rest tr
  apply unmarshal_first_error ctx c pre k v _ hpre _ rest tr
  rw [rootHandler, if_neg h1, if_neg h2]

/-- Witness for C1 at the concrete key bogus following a well-formed
attribute-declarations section. -/
theorem c1_witness :
    context.unmarshal newContext
        ⟨none, true,
          [(yastTagAttributes, Payload.attrObj [])] ++ [("bogus", Payload.otherVal)],
          false⟩ =
      Except.error (newUnknownAttributeError "bogus") :=
  c1_unknown_tag_is_hard_error newContext newContext
    [(yastTagAttributes, Payload.attrObj [])] "bogus" Payload.otherVal rfl
    (by decide) (by decide) [] false

/-- C2: root tag dispatch is case-insensitive: any key whose lower-cased
form equals the attribute-declarations tag is dispatched exactly as the
lower-case tag itself, and likewise for the policies tag. -/
theorem c2_dispatch_case_insensitive (k : String) (v : Payload) (ctx : context) :
    (stringsToLower k = yastTagAttributes →
      rootHandler k v ctx = rootHandler yastTagAttributes v ctx) ∧
    (stringsToLower k = yastTagPolicies →
      rootHandler k v ctx = rootHandler yastTagPolicies v ctx) := by
  have ha : stringsToLower yastTagAttributes = yastTagAttributes := by decide
  have hp : stringsToLower yastTagPolicies = yastTagPolicies := by decide
  have hne : yastTagPolicies ≠ yastTagAttributes := by decide
  constructor
  · intro h
    unfold rootHandler
    rw [h, ha]
    simp
  · intro h
    unfold rootHandler
    rw [h, hp]
    simp [hne]

/-- Witness for C2 at the casing variants Attributes and POLICIES. -/
theorem c2_witness :
    (rootHandler "Attributes" (Payload.attrObj []) newContext =
      rootHandler yastTagAttributes (Payload.attrObj []) newContext) ∧
    (rootHandler "POLICIES" Payload.otherVal newContext =
      rootHandler yastTagPolicies Payload.otherVal newContext) :=
  ⟨(c2_dispatch_case_insensitive "Attributes" (Payload.attrObj []) newContext).1 (by decide),
   (c2_dispatch_case_insensitive "POLICIES" Payload.otherVal newContext).2 (by decide)⟩

/-- C3: when a section handler fails on some key, context.unmarshal returns
exactly that error: the error of the first failing key is the result, no
later key of the document is processed (the result is the same for every
suffix and trailing flag), and no context is returned. -/
theorem c3_first_error_returned (ctx c : context) (pre : List (String × Payload))
    (k : String) (v : Payload) (e : ParseError)
    (hpre : jparser.UnmarshalObject rootHandler pre ctx = Except.ok c)
    (hk : rootHandler k v c = Except.error e) :
    ∀ (rest : List (String × Payload)) (tr : Bool),
      context.unmarshal ctx ⟨none, true, pre ++ (k, v) :: rest, tr⟩ = Except.error e :=
  fun rest tr => unmarshal_first_error ctx c pre k v e hpre hk rest tr

/-- Witness for C3: a duplicate declaration fails the load with that first
error even though a later key follows. -/
theorem c3_witness :
    context.unmarshal newContext
      ⟨none, true,
        [] ++ (yastTagAttributes, Payload.attrObj [("a", "string"), ("a", "string")]) ::
          [("later", Payload.otherVal)], false⟩ =
      Except.error (ParseError.duplicateAttribute "a") :=
  c3_first_error_returned newContext newContext []
    yastTagAttributes (Payload.attrObj [("a", "string"), ("a", "string")])
    (ParseError.duplicateAttribute "a") rfl rfl [("later", Payload.otherVal)] false

/-- C4 counterexample: a document whose root object is empty parses
successfully while the resulting context holds no root policy at all, so
success does not imply exactly one root policy. -/
theorem c4_counterexample :
    newContext.unmarshal ⟨none, true, [], false⟩ = Except.ok newContext ∧
      newContext.rootPolicy = none :=
  ⟨rfl, rfl⟩

/-- C4 amended: the context holds at most one root policy (a single slot),
and after a successful parse from a fresh context it holds exactly one root
policy precisely when the document has a root object containing a key that
dispatches (case-insensitively) to the policies section; otherwise success
leaves no root policy. -/
theorem c4_amended_root_policy (d : Doc) (c : context)
    (hok : newContext.unmarshal d = Except.ok c) :
    c.rootPolicy.isSome = true ↔
      (d.hasRoot = true ∧ ∃ p ∈ d.pairs, stringsToLower p.1 = yastTagPolicies) := by
  cases hse : d.startErr with
  | some e =>
    exfalso
    unfold context.unmarshal jparser.CheckRootObjectStart at hok
    rw [hse] at hok
    exact absurd hok (by simp)
  | none =>
    cases hhr : d.hasRoot with
    | false =>
      unfold context.unmarshal jparser.CheckRootObjectStart at hok
      rw [hse, hhr] at hok
      cases hok
      simp [newContext, hhr]
    | true =>
      unfold context.unmarshal jparser.CheckRootObjectStart at hok
      rw [hse, hhr] at hok
      cases hb : jparser.UnmarshalObject rootHandler d.pairs newContext with
      | error e => rw [hb] at hok; exact absurd hok (by simp)
      | ok c2 =>
        rw [hb] at hok
        cases htr : d.trailing with
        | true =>
          rw [jparser.CheckEOF, if_pos (by rw [htr])] at hok
          exact absurd hok (by simp)
        | false =>
          rw [jparser.CheckEOF, if_neg (by rw [htr]; simp)] at hok
          cases hok
          have hmain := rootPolicy_after_object d.pairs newContext _ hb
          rw [hmain]
          simp [newContext, hhr]

/-- Witness for C4: a document whose root object carries the policies key
parses to a context holding the root policy. -/
theorem c4_witness :
    (context.mk [] (some [])).rootPolicy.isSome = true ↔
      ((Doc.mk none true [(yastTagPolicies, Payload.policyObj [])] false).hasRoot = true ∧
        ∃ p ∈ (Doc.mk none true [(yastTagPolicies, Payload.policyObj [])] false).pairs,
          stringsToLower p.1 = yastTagPolicies) :=
  c4_amended_root_policy (Doc.mk none true [(yastTagPolicies, Payload.policyObj [])] false)
    (context.mk [] (some [])) rfl

/-- C5: Deny-overrides over the ordered child results returns Deny with the
denying child's obligations when some child denies, else Indeterminate when
some child is Indeterminate, else Permit when some child permits, else
NotApplicable; in particular [Permit, Deny, NotApplicable] combine to Deny
and [Permit, Indeterminate] combine to Indeterminate. -/
theorem c5_deny_overrides (rs : List EvalResult) (r : EvalResult) (obs : List Obligation) :
    (rs.find? (fun x => decide (x.effect = Effect.Deny)) = some r →
      denyOverrides rs = ⟨Effect.Deny, r.obligations⟩) ∧
    ((∃ x ∈ rs, x.effect = Effect.Deny) → (denyOverrides rs).effect = Effect.Deny) ∧
    ((∀ x ∈ rs, x.effect ≠ Effect.Deny) → (∃ x ∈ rs, x.effect = Effect.Indeterminate) →
      denyOverrides rs = ⟨Effect.Indeterminate, []⟩) ∧
    ((∀ x ∈ rs, x.effect ≠ Effect.Deny) → (∀ x ∈ rs, x.effect ≠ Effect.Indeterminate) →
      (∃ x ∈ rs, x.effect = Effect.Permit) →
      denyOverrides rs = ⟨Effect.Permit, []⟩) ∧
    ((∀ x ∈ rs, x.effect ≠ Effect.Deny) → (∀ x ∈ rs, x.effect ≠ Effect.Indeterminate) →
      (∀ x ∈ rs, x.effect ≠ Effect.Permit) →
      denyOverrides rs = ⟨Effect.NotApplicable, []⟩) ∧
    denyOverrides [⟨Effect.Permit, []⟩, ⟨Effect.Deny, obs⟩, ⟨Effect.NotApplicable, []⟩] =
      ⟨Effect.Deny, obs⟩ ∧
    denyOverrides [⟨Effect.Permit, []⟩, ⟨Effect.Indeterminate, []⟩] =
      ⟨Effect.Indeterminate, []⟩ := by
  refine ⟨?_, ?_, ?_, ?_, ?_, ?_, ?_⟩
  · intro h
    unfold denyOverrides
    rw [h]
  · rintro ⟨x, hx, hxe⟩
    unfold denyOverrides
    cases hfind : rs.find? (fun x => decide (x.effect = Effect.Deny)) with
    | some y => rfl
    | none =>
      exfalso
      have := List.find?_eq_none.mp hfind x hx
      simp [hxe] at this
  · intro h1 h2
    have hfind : rs.find? (fun x => decide (x.effect = Effect.Deny)) = none :=
      List.find?_eq_none.mpr (fun x hx => by simp [h1 x hx])
    obtain ⟨x, hx, hxe⟩ := h2
    have hany : rs.any (fun r => decide (r.effect = Effect.Indeterminate)) = true :=
      List.any_eq_true.mpr ⟨x, hx, by simp [hxe]⟩
    unfold denyOverrides
    rw [hfind, if_pos hany]
  · intro h1 h2 h3
    have hfind : rs.find? (fun x => decide (x.effect = Effect.Deny)) = none :=
      List.find?_eq_none.mpr (fun x hx => by simp [h1 x hx])
    have hni : ¬rs.any (fun r => decide (r.effect = Effect.Indeterminate)) = true := by
      intro hc
      obtain ⟨x, hx, hxe⟩ := List.any_eq_true.mp hc
      simp at hxe
      exact h2 x hx hxe
    obtain ⟨x, hx, hxe⟩ := h3
    have hany : rs.any (fun r => decide (r.effect = Effect.Permit)) = true :=
      List.any_eq_true.mpr ⟨x, hx, by simp [hxe]⟩
    unfold denyOverrides
    rw [hfind, if_neg hni, if_pos hany]
  · intro h1 h2 h3
    have hfind : rs.find? (fun x => decide (x.effect = Effect.Deny)) = none :=
      List.find?_eq_none.mpr (fun x hx => by simp [h1 x hx])
    have hni : ¬rs.any (fun r => decide (r.effect = Effect.Indeterminate)) = true := by
      intro hc
      obtain ⟨x, hx, hxe⟩ := List.any_eq_true.mp hc
      simp at hxe
      exact h2 x hx hxe
    have hnp : ¬rs.any (fun r => decide (r.effect = Effect.Permit)) = true := by
      intro hc
      obtain ⟨x, hx, hxe⟩ := List.any_eq_true.mp hc
      simp at hxe
      exact h3 x hx hxe
    unfold denyOverrides
    rw [hfind, if_neg hni, if_neg hnp]
  · rfl
  · rfl

/-- Witness for C5: a concrete denying child wins with its obligations. -/
theorem c5_witness :
    denyOverrides [⟨Effect.Permit, []⟩, ⟨Effect.Deny, [⟨"a", "x"⟩]⟩] =
      ⟨Effect.Deny, [⟨"a", "x"⟩]⟩ ∧
    denyOverrides [⟨Effect.Permit, []⟩, ⟨Effect.Indeterminate, []⟩] =
      ⟨Effect.Indeterminate, []⟩ :=
  ⟨(c5_deny_overrides [⟨Effect.Permit, []⟩, ⟨Effect.Deny, [⟨"a", "x"⟩]⟩]
      ⟨Effect.Deny, [⟨"a", "x"⟩]⟩ []).1 rfl,
   (c5_deny_overrides [] ⟨Effect.Permit, []⟩ []).2.2.2.2.2.2⟩

/-- C6: over the shared attrs map processed in document order, a key
dispatching to the attribute-declarations section that redeclares an id
(already declared earlier in the section or already in the map) makes
context.unmarshal fail with a duplicate-attribute error, and a key
dispatching to the policies section whose policy references an id absent
from the map makes it fail with a missing-attribute error. -/
theorem c6_declare_before_use (ctx c : context) (pre : List (String × Payload))
    (k : String)
    (hpre : jparser.UnmarshalObject rootHandler pre ctx = Except.ok c) :
    (∀ (ds ds1 : List (String × String)) (i t : String) (ds2 : List (String × String))
        (rest : List (String × Payload)) (tr : Bool),
      ds = ds1 ++ (i, t) :: ds2 →
      stringsToLower k = yastTagAttributes →
      (i ∈ ds1.map Prod.fst ∨ (c.attrs.lookup i).isSome = true) →
      ∃ j, context.unmarshal ctx ⟨none, true, pre ++ (k, Payload.attrObj ds) :: rest, tr⟩ =
        Except.error (ParseError.duplicateAttribute j)) ∧
    (∀ (refs : List String) (r : String) (rest : List (String × Payload)) (tr : Bool),
      stringsToLower k = yastTagPolicies →
      r ∈ refs → c.attrs.lookup r = none →
      ∃ r2, context.unmarshal ctx ⟨none, true, pre ++ (k, Payload.policyObj refs) :: rest, tr⟩ =
        Except.error (ParseError.missingAttribute r2)) := by
  constructor
  · intro ds ds1 i t ds2 rest tr hds htag hmem
    obtain ⟨j, hj⟩ := unmarshalAttrList_redeclared ds1 i t ds2 c hmem
    refine ⟨j, unmarshal_first_error ctx c pre k (Payload.attrObj ds) _ hpre ?_ rest tr⟩
    rw [rootHandler, if_pos htag]
    show context.unmarshalAttributeDeclarations c (Payload.attrObj ds) = _
    unfold context.unmarshalAttributeDeclarations
    rw [hds]
    exact hj
  · intro refs r rest tr htag hmem hnone
    obtain ⟨r2, hr2⟩ := firstUndeclared_isSome c.attrs refs r hmem hnone
    have hna : stringsToLower k ≠ yastTagAttributes := by
      rw [htag]; decide
    refine ⟨r2, unmarshal_first_error ctx c pre k (Payload.policyObj refs) _ hpre ?_ rest tr⟩
    rw [rootHandler, if_neg hna, if_pos htag]
    have hred : ((match firstUndeclared c.attrs refs with
        | some r => Except.error (ParseError.missingAttribute r)
        | none => Except.ok { attrs := c.attrs, rootPolicy := some refs }) :
          Except ParseError context) =
        Except.error (ParseError.missingAttribute r2) := by rw [hr2]
    exact hred

/-- Witness for C6: a duplicated declaration and a reference to an
undeclared attribute each fail the load at concrete documents. -/
theorem c6_witness :
    (∃ j, context.unmarshal newContext
        ⟨none, true, [] ++ (yastTagAttributes, Payload.attrObj [("a", "t"), ("a", "t")]) :: [],
          false⟩ =
        Except.error (ParseError.duplicateAttribute j)) ∧
    (∃ r2, context.unmarshal newContext
        ⟨none, true, [] ++ (yastTagPolicies, Payload.policyObj ["undeclared"]) :: [],
          true⟩ =
        Except.error (ParseError.missingAttribute r2)) :=
  ⟨(c6_declare_before_use newContext newContext [] yastTagAttributes rfl).1
      [("a", "t"), ("a", "t")] [("a", "t")] "a" "t" [] [] false rfl (by decide)
      (Or.inl (by decide)),
   (c6_declare_before_use newContext newContext [] yastTagPolicies rfl).2
      ["undeclared"] "undeclared" [] true (by decide) (by decide) rfl⟩

/-- C7: when the root-object-start check reports absence without a decoding
error, context.unmarshal returns success leaving the context untouched; in
particular a fresh context ends with no root policy and no attribute
declarations. -/
theorem c7_absent_root_succeeds (d : Doc) (ctx : context)
    (hs : d.startErr = none) (hr : d.hasRoot = false) :
    ctx.unmarshal d = Except.ok ctx ∧
      newContext.unmarshal d = Except.ok newContext ∧
      newContext.rootPolicy = none ∧ newContext.attrs = [] := by
  refine ⟨?_, ?_, rfl, rfl⟩
  · simp [context.unmarshal, jparser.CheckRootObjectStart, hs, hr]
  · simp [context.unmarshal, jparser.CheckRootObjectStart, hs, hr]

/-- Witness for C7 at the concrete empty document. -/
theorem c7_witness :
    newContext.unmarshal ⟨none, false, [], false⟩ = Except.ok newContext ∧
      newContext.unmarshal ⟨none, false, [], false⟩ = Except.ok newContext ∧
      newContext.rootPolicy = none ∧ newContext.attrs = [] :=
  c7_absent_root_succeeds ⟨none, false, [], false⟩ newContext rfl rfl

/-- C8: after the root object closes, trailing content makes
context.unmarshal return the end-of-input check's error instead of
success. -/
theorem c8_trailing_content_rejected (d : Doc) (ctx c : context)
    (hs : d.startErr = none) (hr : d.hasRoot = true) (ht : d.trailing = true)
    (hb : jparser.UnmarshalObject rootHandler d.pairs ctx = Except.ok c) :
    ctx.unmarshal d = Except.error ParseError.trailingContent := by
  simp [context.unmarshal, jparser.CheckRootObjectStart, jparser.CheckEOF, hs, hr, ht, hb]

/-- Witness for C8 at a concrete document with trailing content. -/
theorem c8_witness :
    context.unmarshal newContext ⟨none, true, [], true⟩ =
      Except.error ParseError.trailingContent :=
  c8_trailing_content_rejected ⟨none, true, [], true⟩ newContext newContext rfl rfl rfl rfl

/-- C9: InitTracing yields a nil tracer and nil error for an empty endpoint
regardless of the tracing type, and for a non-empty endpoint any type other
than zipkin yields a nil tracer and an error naming the invalid type. -/
theorem c9_init_tracing (setupZipkin : String → TracerResult)
    (tracingType tracingEP : String) :
    InitTracing setupZipkin tracingType "" = (none, none) ∧
      (tracingEP ≠ "" → tracingType ≠ "zipkin" →
        InitTracing setupZipkin tracingType tracingEP =
          (none, some ("Invalid tracing type: " ++ tracingType))) := by
  refine ⟨rfl, fun h1 h2 => ?_⟩
  simp [InitTracing, h1, h2]

/-- Witness for C9 at a concrete unrecognized tracing type. -/
theorem c9_witness :
    InitTracing (fun _ => (none, none)) "jaeger" "" = (none, none) ∧
      InitTracing (fun _ => (none, none)) "jaeger" "ep" =
        (none, some "Invalid tracing type: jaeger") := by
  have h := c9_init_tracing (fun _ => (none, none)) "jaeger" "ep"
  refine ⟨h.1, ?_⟩
  rw [h.2 (by decide) (by decide)]
  decide

end Themis
